import Mathlib

/-!
Shallow embedding of the yield-curve construction engine in `src/rates.py`
(class `ZCBBuilder`).

Modelling conventions:
* Python floats are modelled as exact real numbers `ℝ`; the bootstrap and the
  interpolator, which use only field operations, are stated generically over a
  `LinearOrderedField` so that claims about the recursion can be settled over
  `ℚ` with decidable arithmetic.
* A float that is not finite (numpy `nan` or `inf`) is modelled as `none` in
  `Option`.  numpy produces `nan` for a fractional power of a negative base,
  `inf` for float division by zero (a `RuntimeWarning`, not an exception), and
  Python `max(nan, 0.01) = nan`, `max(inf, 0.01) = inf`, so the floor keeps a
  non-finite value non-finite.
* The only exception the engine can raise for the inputs modelled here is a
  Python `ValueError` (raised by `np.arange(0, nan + 1)` when the quote set is
  empty, so that `input_df['MTHS'].max()` is `nan`); it is modelled with
  `Except`.
* Quote lists are assumed to be strictly increasing in tenor with unique
  tenors, as at both call sites of `ZCBBuilder` in the repository (duplicate
  tenors are undefined behaviour by the specification).
-/

/-- Exceptions observable from the engine: numpy and pandas raise a Python
`ValueError` (for example from `np.arange` on a `nan` bound when the quote set
is empty). -/
inductive EngineError
  | valueError

/-- Embeds `ZCBBuilder.convert_bey_to_ac`:
`1200 * ((1 + bey / 200) ** (1/6) - 1)`.  The source applies no validation;
for a base `1 + bey/200 < 0` numpy returns `nan` (modelled as `none`). -/
noncomputable def convert_bey_to_ac (b : ℝ) : Option ℝ :=
  if 1 + b / 200 < 0 then none
  else some (1200 * ((1 + b / 200) ^ ((1 : ℝ) / 6) - 1))

section Generic

variable {α : Type} [LinearOrderedField α]

/-- Embeds the pandas linear interpolation performed in
`ZCBBuilder.interpolate_monthly_par_curve`: the quoted `(tenor, yield)` pairs
(sorted by tenor) are merged onto the monthly timeline and
`interpolate(method='linear')` fills months strictly between two quotes by
positional linear interpolation and clamps months after the last quote to its
value.  Months before the first quoted tenor are left `nan` (`none`): the
line `curve['INTERP_PAR_YIELD'].bfill().ffill()` in the source discards its
result, so no backward fill ever reaches the curve. -/
def interpSorted : List (ℕ × α) → ℕ → Option α
  | [], _ => none
  | [(t1, y1)], m => if m < t1 then none else some y1
  | (t1, y1) :: (t2, y2) :: rest, m =>
      if m < t1 then none
      else if m < t2 then
        some (y1 + (y2 - y1) * (((m : α) - (t1 : α)) / ((t2 : α) - (t1 : α))))
      else interpSorted ((t2, y2) :: rest) m

/-- Float addition where `none` models a non-finite value (`nan` absorbs, and
`inf` absorbs against the finite summands arising here). -/
def optAdd : Option α → Option α → Option α
  | some a, some b => some (a + b)
  | _, _ => none

/-- Float multiplication where `none` models a non-finite value. -/
def optMul : Option α → Option α → Option α
  | some a, some b => some (a * b)
  | _, _ => none

/-- Python `sum` over a list, left fold starting from `0`. -/
def optSum (l : List (Option α)) : Option α := l.foldl optAdd (some 0)

variable [DecidableEq α]

/-- One iteration of the loop in `ZCBBuilder.bootstrap_monthly_zcb`: with
`i = len(zcb)` the current month, `coupon = yield[i] / 1200`,
`discounted_coupons = sum(coupon * zcb[j] for j in range(1, i))`, the new
factor is `(1 - discounted_coupons) / (1 + coupon)` — numpy float division by
zero yields `inf`, modelled as `none` — floored through
`max(z_i, 0.01)`, which keeps a non-finite value non-finite. -/
def bootNext (y : ℕ → Option α) (zcb : List (Option α)) : List (Option α) :=
  let i := zcb.length
  let coupon := (y i).map (fun c => c / 1200)
  let disc := optSum ((List.range' 1 (i - 1)).map
    (fun j => optMul coupon (zcb.getD j none)))
  let z :=
    match coupon, disc with
    | some c, some d => if 1 + c = 0 then none else some ((1 - d) / (1 + c))
    | _, _ => none
  zcb ++ [z.map (fun v => max v (1 / 100))]

/-- Embeds `ZCBBuilder.bootstrap_monthly_zcb` on an interpolated curve with
months `0..n`: `zcb = [1.0]` and then one `bootNext` step for each
`i in range(1, n + 1)`. -/
def bootstrap_monthly_zcb (y : ℕ → Option α) : ℕ → List (Option α)
  | 0 => [some 1]
  | n + 1 => bootNext y (bootstrap_monthly_zcb y n)

/-- The discount factor the curve assigns to month `j` when it is defined
(`zval` reads the option away; meaningful under definedness hypotheses). -/
def zval (y : ℕ → Option α) (n j : ℕ) : α :=
  ((bootstrap_monthly_zcb y n).getD j none).getD 0

/-- The same loop body in exact arithmetic, for a curve whose yields are all
defined and whose divisions do not hit a zero denominator. -/
def bootNextP (g : ℕ → α) (zcb : List α) : List α :=
  let i := zcb.length
  let c := g i / 1200
  let disc := ((List.range' 1 (i - 1)).map (fun j => c * zcb.getD j 0)).sum
  zcb ++ [max ((1 - disc) / (1 + c)) (1 / 100)]

/-- The bootstrap recursion in exact arithmetic (same structure as
`bootstrap_monthly_zcb`, without the non-finite bookkeeping). -/
def bootstrapP (g : ℕ → α) : ℕ → List α
  | 0 => [1]
  | n + 1 => bootNextP g (bootstrapP g n)

end Generic

/-- The `PAR_YIELD_AC` column computed in `ZCBBuilder.__init__`: the
conversion applied to every quote. -/
noncomputable def acQuotes (qs : List (ℕ × ℝ)) : List (ℕ × Option ℝ) :=
  qs.map (fun q => (q.1, convert_bey_to_ac q.2))

/-- Drops the `nan` entries: pandas treats a `nan` cell exactly like an
unquoted month when interpolating. -/
def validQuotes (qs : List (ℕ × Option ℝ)) : List (ℕ × ℝ) :=
  qs.filterMap (fun q => q.2.map (fun y => (q.1, y)))

/-- Embeds `ZCBBuilder.interpolate_monthly_par_curve` as the yield the
returned curve carries at month `m`. -/
noncomputable def interpolate_monthly_par_curve (qs : List (ℕ × ℝ)) (m : ℕ) :
    Option ℝ :=
  interpSorted (validQuotes (acQuotes qs)) m

/-- Embeds `self.input_df['MTHS'].max()`: `none` on an empty quote set
(pandas returns `nan`). -/
def maxTenor : List (ℕ × ℝ) → Option ℕ
  | [] => none
  | q :: rest =>
      match maxTenor rest with
      | none => some q.1
      | some m => some (max q.1 m)

/-- Embeds `ZCBBuilder.run`: interpolate the monthly curve up to the maximum
quoted tenor, then bootstrap the discount factors.  On an empty quote set
`np.arange(0, nan + 1)` raises a Python `ValueError` before any curve row
exists, modelled as `Except.error`; otherwise the full column of discount
factors for months `0..max_tenor` is returned. -/
noncomputable def run (qs : List (ℕ × ℝ)) :
    Except EngineError (List (Option ℝ)) :=
  match maxTenor qs with
  | none => .error .valueError
  | some n => .ok (bootstrap_monthly_zcb (interpolate_monthly_par_curve qs) n)

section ListHelpers

variable {β : Type}

lemma getD_append_lt (l l' : List β) (d : β) :
    ∀ n, n < l.length → (l ++ l').getD n d = l.getD n d := by
  induction l with
  | nil => intro n hn; simp at hn
  | cons x xs ih =>
      intro n hn
      cases n with
      | zero => rfl
      | succ m =>
          simp only [List.cons_append, List.getD_cons_succ]
          exact ih m (by simpa using hn)

lemma getD_append_self (l : List β) (x d : β) :
    (l ++ [x]).getD l.length d = x := by
  induction l with
  | nil => rfl
  | cons a as ih => simpa using ih

lemma getD_append_len (l : List β) (x d : β) (n : ℕ) (h : l.length = n) :
    (l ++ [x]).getD n d = x := by
  rw [← h]
  exact getD_append_self l x d

lemma getD_map_some (l : List β) (d : β) :
    ∀ j, j < l.length →
      (l.map some).getD j none = some (l.getD j d) := by
  induction l with
  | nil => intro j hj; simp at hj
  | cons x xs ih =>
      intro j hj
      cases j with
      | zero => rfl
      | succ m =>
          simp only [List.map_cons, List.getD_cons_succ]
          exact ih m (by simpa using hj)

lemma mem_range'_bounds {j s n : ℕ} (h : j ∈ List.range' s n) :
    s ≤ j ∧ j < s + n := by
  induction n generalizing s with
  | zero => simp [List.range'] at h
  | succ m ih =>
      rw [List.range'] at h
      rcases List.mem_cons.mp h with h1 | h2
      · omega
      · have := ih h2
        omega

lemma range'_concat_one (s n : ℕ) :
    List.range' s (n + 1) = List.range' s n ++ [s + n] := by
  induction n generalizing s with
  | zero => simp [List.range']
  | succ m ih =>
      rw [List.range', ih (s + 1), List.range']
      simp [List.cons_append]
      omega

lemma map_floor_ge {α : Type} [LinearOrderedField α] (z : Option α) (x : α)
    (h : z.map (fun v => max v (1 / 100)) = some x) : 1 / 100 ≤ x := by
  cases z with
  | none => simp at h
  | some w =>
      simp only [Option.map_some'] at h
      rw [← Option.some.inj h]
      exact le_max_right _ _

end ListHelpers

section Lemmas

variable {α : Type} [LinearOrderedField α]

lemma sum_range'_map (f : ℕ → α) (k : ℕ) :
    ((List.range' 1 k).map f).sum = ∑ j ∈ Finset.Icc 1 k, f j := by
  induction k with
  | zero => simp [List.range']
  | succ m ih =>
      rw [range'_concat_one, List.map_append, List.sum_append, ih]
      rw [Finset.sum_Icc_succ_top (Nat.le_add_left 1 m) f]
      simp [Nat.add_comm 1 m]

lemma foldl_optAdd_map_some (l : List α) :
    ∀ a : α, (l.map some).foldl optAdd (some a) = some (a + l.sum) := by
  induction l with
  | nil => intro a; simp [optAdd]
  | cons x xs ih =>
      intro a
      simp only [List.map_cons, List.foldl_cons, optAdd, List.sum_cons]
      rw [ih (a + x)]
      ring_nf

lemma optSum_map_some (l : List α) : optSum (l.map some) = some l.sum := by
  simpa using foldl_optAdd_map_some l 0

lemma optSum_map_some_comp (l : List ℕ) (f : ℕ → α) :
    optSum (l.map (fun j => some (f j))) = some ((l.map f).sum) := by
  have h := optSum_map_some (l.map f)
  rw [List.map_map] at h
  exact h

variable [DecidableEq α]

lemma length_bootstrap (y : ℕ → Option α) (n : ℕ) :
    (bootstrap_monthly_zcb y n).length = n + 1 := by
  induction n with
  | zero => rfl
  | succ m ih => simp [bootstrap_monthly_zcb, bootNext, ih]

lemma length_bootstrapP (g : ℕ → α) (n : ℕ) :
    (bootstrapP g n).length = n + 1 := by
  induction n with
  | zero => rfl
  | succ m ih => simp [bootstrapP, bootNextP, ih]

lemma bootstrap_getD_zero (y : ℕ → Option α) (n : ℕ) :
    (bootstrap_monthly_zcb y n).getD 0 none = some 1 := by
  induction n with
  | zero => rfl
  | succ m ih =>
      show (bootNext y (bootstrap_monthly_zcb y m)).getD 0 none = some 1
      rw [bootNext]
      rw [getD_append_lt _ _ _ 0 (by rw [length_bootstrap]; omega)]
      exact ih

lemma bootstrapP_getD_zero (g : ℕ → α) (n : ℕ) :
    (bootstrapP g n).getD 0 0 = 1 := by
  induction n with
  | zero => rfl
  | succ m ih =>
      show (bootNextP g (bootstrapP g m)).getD 0 0 = 1
      rw [bootNextP]
      rw [getD_append_lt _ _ _ 0 (by rw [length_bootstrapP]; omega)]
      exact ih

lemma bootstrapP_stable (g : ℕ → α) :
    ∀ m n i, n ≤ m → i ≤ n →
      (bootstrapP g m).getD i 0 = (bootstrapP g n).getD i 0 := by
  intro m
  induction m with
  | zero =>
      intro n i hn _
      have : n = 0 := by omega
      rw [this]
  | succ m ih =>
      intro n i hn hi
      rcases Nat.eq_or_lt_of_le hn with h | h
      · rw [h]
      · have hnm : n ≤ m := by omega
        show (bootNextP g (bootstrapP g m)).getD i 0 = _
        rw [bootNextP]
        rw [getD_append_lt _ _ _ i (by rw [length_bootstrapP]; omega)]
        exact ih n i hnm hi

lemma bootstrapP_getD_succ (g : ℕ → α) (k : ℕ) :
    (bootstrapP g (k + 1)).getD (k + 1) 0 =
      max ((1 - ((List.range' 1 k).map
            (fun j => (g (k + 1) / 1200) * (bootstrapP g k).getD j 0)).sum)
        / (1 + g (k + 1) / 1200)) (1 / 100) := by
  have hlen : (bootstrapP g k).length = k + 1 := length_bootstrapP g k
  show (bootNextP g (bootstrapP g k)).getD (k + 1) 0 = _
  simp only [bootNextP, hlen, Nat.add_sub_cancel]
  exact getD_append_len _ _ _ _ hlen

lemma bootstrapP_rec (g : ℕ → α) {n k : ℕ} (h : k + 1 ≤ n) :
    (bootstrapP g n).getD (k + 1) 0 =
      max ((1 - ∑ j ∈ Finset.Icc 1 k,
            (g (k + 1) / 1200) * (bootstrapP g n).getD j 0)
        / (1 + g (k + 1) / 1200)) (1 / 100) := by
  rw [bootstrapP_stable g n (k + 1) (k + 1) h (le_refl _)]
  rw [bootstrapP_getD_succ,
    sum_range'_map (fun j => (g (k + 1) / 1200) * (bootstrapP g k).getD j 0) k]
  have hs : ∑ j ∈ Finset.Icc 1 k, (g (k + 1) / 1200) * (bootstrapP g k).getD j 0
      = ∑ j ∈ Finset.Icc 1 k, (g (k + 1) / 1200) * (bootstrapP g n).getD j 0 := by
    refine Finset.sum_congr rfl (fun j hj => ?_)
    have hjk : j ≤ k := (Finset.mem_Icc.mp hj).2
    rw [bootstrapP_stable g n k j (by omega) hjk]
  rw [hs]

lemma bootNext_map (g : ℕ → α) (l : List α)
    (hne : 1 + g l.length / 1200 ≠ 0)
    (hl : ∀ j ∈ List.range' 1 (l.length - 1), j < l.length) :
    bootNext (fun i => some (g i)) (l.map some) = (bootNextP g l).map some := by
  simp only [bootNext, bootNextP, List.length_map, List.map_append,
    List.map_cons, List.map_nil, Option.map_some']
  congr 1
  have hmap : (List.range' 1 (l.length - 1)).map
      (fun j => optMul (some (g l.length / 1200)) ((l.map some).getD j none))
      = (List.range' 1 (l.length - 1)).map
        (fun j => some ((g l.length / 1200) * l.getD j 0)) := by
    refine List.map_congr_left (fun j hj => ?_)
    rw [getD_map_some l 0 j (hl j hj)]
    rfl
  rw [hmap, optSum_map_some_comp (List.range' 1 (l.length - 1))
    (fun j => (g l.length / 1200) * l.getD j 0)]
  simp [hne]

lemma bootstrap_eq_map (g : ℕ → α) :
    ∀ n, (∀ k, 1 ≤ k → k ≤ n → 1 + g k / 1200 ≠ 0) →
      bootstrap_monthly_zcb (fun i => some (g i)) n = (bootstrapP g n).map some := by
  intro n
  induction n with
  | zero => intro _; rfl
  | succ m ih =>
      intro hd
      show bootNext _ (bootstrap_monthly_zcb (fun i => some (g i)) m) = _
      rw [ih (fun k h1 h2 => hd k h1 (by omega))]
      rw [bootNext_map g (bootstrapP g m)
        (by rw [length_bootstrapP]; exact hd (m + 1) (by omega) (le_refl _))
        (by
          intro j hj
          have := mem_range'_bounds hj
          rw [length_bootstrapP] at this ⊢
          omega)]
      rfl

lemma zval_eq_pure (g : ℕ → α) {n j : ℕ} (hj : j ≤ n)
    (hd : ∀ k, 1 ≤ k → k ≤ n → 1 + g k / 1200 ≠ 0) :
    zval (fun k => some (g k)) n j = (bootstrapP g n).getD j 0 := by
  simp only [zval]
  rw [bootstrap_eq_map g n hd,
    getD_map_some _ 0 j (by rw [length_bootstrapP]; omega)]
  rfl

lemma bootstrap_floor (y : ℕ → Option α) (n : ℕ) :
    ∀ o ∈ bootstrap_monthly_zcb y n, ∀ x : α, o = some x → 1 / 100 ≤ x := by
  induction n with
  | zero =>
      intro o ho x hx
      simp only [bootstrap_monthly_zcb, List.mem_singleton] at ho
      rw [ho] at hx
      have hx1 : x = 1 := by simpa using hx.symm
      rw [hx1]
      norm_num
  | succ m ih =>
      intro o ho x hx
      simp only [bootstrap_monthly_zcb, bootNext] at ho
      rcases List.mem_append.mp ho with h1 | h2
      · exact ih o h1 x hx
      · have ho2 := List.mem_singleton.mp h2
        exact map_floor_ge _ x (ho2.symm.trans hx)

end Lemmas

section Evaluations

lemma convert_zero : convert_bey_to_ac 0 = some 0 := by
  rw [convert_bey_to_ac, if_neg (by norm_num)]
  norm_num [Real.one_rpow]

lemma convert_neg300 : convert_bey_to_ac (-300) = none := by
  rw [convert_bey_to_ac, if_pos (by norm_num)]

lemma convert_neg200 : convert_bey_to_ac (-200) = some (-1200) := by
  rw [convert_bey_to_ac, if_neg (by norm_num)]
  have hbase : (1 + (-200 : ℝ) / 200) = 0 := by norm_num
  rw [hbase, Real.zero_rpow (by norm_num : ((1 : ℝ) / 6) ≠ 0)]
  norm_num

lemma convert_ce : convert_bey_to_ac (-1575 / 8) = some (-600) := by
  rw [convert_bey_to_ac, if_neg (by norm_num)]
  have hbase : (1 + (-1575 / 8 : ℝ) / 200) = (1 / 2 : ℝ) ^ (6 : ℕ) := by
    norm_num
  rw [hbase, ← Real.rpow_natCast ((1 / 2 : ℝ)) 6,
    ← Real.rpow_mul (by norm_num : (0 : ℝ) ≤ 1 / 2)]
  have hexp : ((6 : ℕ) : ℝ) * ((1 : ℝ) / 6) = 1 := by push_cast; ring
  rw [hexp, Real.rpow_one]
  norm_num

lemma interp_zero_quote_at_zero :
    interpolate_monthly_par_curve [(1, (0 : ℝ))] 0 = none := by
  simp [interpolate_monthly_par_curve, acQuotes, validQuotes, convert_zero,
    interpSorted]

lemma interp_zero_quote_at_one :
    interpolate_monthly_par_curve [(1, (0 : ℝ))] 1 = some 0 := by
  simp [interpolate_monthly_par_curve, acQuotes, validQuotes, convert_zero,
    interpSorted]

lemma run_zero_quote : run [(1, (0 : ℝ))] = .ok [some 1, some 1] := by
  simp only [run, maxTenor]
  rw [show bootstrap_monthly_zcb (interpolate_monthly_par_curve [(1, (0 : ℝ))]) 1
      = bootNext (interpolate_monthly_par_curve [(1, (0 : ℝ))]) [some 1] from rfl]
  rw [bootNext]
  simp only [List.length_singleton, interp_zero_quote_at_one, Option.map_some']
  norm_num [optSum, optAdd, List.range']

lemma interp_neg300_at_one :
    interpolate_monthly_par_curve [(1, (-300 : ℝ))] 1 = none := by
  simp [interpolate_monthly_par_curve, acQuotes, validQuotes, convert_neg300,
    interpSorted]

lemma run_neg300 : run [(1, (-300 : ℝ))] = .ok [some 1, none] := by
  simp only [run, maxTenor]
  rw [show bootstrap_monthly_zcb
        (interpolate_monthly_par_curve [(1, (-300 : ℝ))]) 1
      = bootNext (interpolate_monthly_par_curve [(1, (-300 : ℝ))]) [some 1]
      from rfl]
  rw [bootNext]
  simp [List.length_singleton, interp_neg300_at_one, optSum, optAdd,
    List.range']

lemma interp_neg200_at_one :
    interpolate_monthly_par_curve [(1, (-200 : ℝ))] 1 = some (-1200) := by
  simp [interpolate_monthly_par_curve, acQuotes, validQuotes, convert_neg200,
    interpSorted]

lemma run_neg200 : run [(1, (-200 : ℝ))] = .ok [some 1, none] := by
  simp only [run, maxTenor]
  rw [show bootstrap_monthly_zcb
        (interpolate_monthly_par_curve [(1, (-200 : ℝ))]) 1
      = bootNext (interpolate_monthly_par_curve [(1, (-200 : ℝ))]) [some 1]
      from rfl]
  rw [bootNext]
  simp only [List.length_singleton, interp_neg200_at_one, Option.map_some']
  norm_num [optSum, optAdd, List.range']

lemma interp_ce_at_one :
    interpolate_monthly_par_curve [(1, (-1575 / 8 : ℝ))] 1 = some (-600) := by
  simp [interpolate_monthly_par_curve, acQuotes, validQuotes, convert_ce,
    interpSorted]

lemma run_ce : run [(1, (-1575 / 8 : ℝ))] = .ok [some 1, some 2] := by
  simp only [run, maxTenor]
  rw [show bootstrap_monthly_zcb
        (interpolate_monthly_par_curve [(1, (-1575 / 8 : ℝ))]) 1
      = bootNext (interpolate_monthly_par_curve [(1, (-1575 / 8 : ℝ))]) [some 1]
      from rfl]
  rw [bootNext]
  simp only [List.length_singleton, interp_ce_at_one, Option.map_some']
  norm_num [optSum, optAdd, List.range']

end Evaluations

/-- C1: the claim states that months before the first quoted tenor receive
the converted yield of the shortest quoted tenor and that no month in range
is left NaN.  The code violates this: the result of
`curve['INTERP_PAR_YIELD'].bfill().ffill()` is discarded, so for the quote
set `[(1, 0)]` (smallest tenor 1 > 0) month 0 keeps an undefined (NaN)
yield even though the quoted month 1 is defined. -/
theorem c1_interpolator_leaves_month_zero_nan :
    interpolate_monthly_par_curve [(1, (0 : ℝ))] 0 = none ∧
    interpolate_monthly_par_curve [(1, (0 : ℝ))] 1 = some 0 :=
  ⟨interp_zero_quote_at_zero, interp_zero_quote_at_one⟩

/-- C2: on a fully interpolated curve (all yields defined, and away from the
division singularity where the float code produces `inf`), the bootstrap
satisfies exactly the claimed recurrence: `Z(0) = 1`, and for `1 ≤ i ≤ n`
the stored factor is `max ((1 - sum of c_i * Z(j) for j = 1..i-1) / (1 + c_i),
0.01)` with `c_i = yield(i) / 1200` and the already-floored prior factors. -/
theorem c2_bootstrap_recurrence (g : ℕ → ℚ) (n : ℕ)
    (hd : ∀ k, 1 ≤ k → k ≤ n → 1 + g k / 1200 ≠ 0) :
    (bootstrap_monthly_zcb (fun i => some (g i)) n).getD 0 none = some 1 ∧
    ∀ i, 1 ≤ i → i ≤ n →
      (bootstrap_monthly_zcb (fun i => some (g i)) n).getD i none =
        some (max ((1 - ∑ j ∈ Finset.Icc 1 (i - 1),
              (g i / 1200) * zval (fun k => some (g k)) n j)
            / (1 + g i / 1200)) (1 / 100)) := by
  have hb := bootstrap_eq_map g n hd
  constructor
  · exact bootstrap_getD_zero _ n
  · intro i h1 h2
    obtain ⟨k, rfl⟩ : ∃ k, i = k + 1 := ⟨i - 1, by omega⟩
    rw [hb, getD_map_some _ 0 (k + 1) (by rw [length_bootstrapP]; omega)]
    rw [Nat.add_sub_cancel, bootstrapP_rec g h2]
    have hs : ∑ j ∈ Finset.Icc 1 k,
          (g (k + 1) / 1200) * zval (fun k => some (g k)) n j
        = ∑ j ∈ Finset.Icc 1 k,
          (g (k + 1) / 1200) * (bootstrapP g n).getD j 0 := by
      refine Finset.sum_congr rfl (fun j hj => ?_)
      have hjn : j ≤ n := by
        have := (Finset.mem_Icc.mp hj).2
        omega
      rw [zval_eq_pure g hjn hd]
    rw [hs]

/-- Witness for C2 at the constant curve 12 with n = 2, month 1. -/
theorem c2_witness :
    (bootstrap_monthly_zcb (fun _ => some (12 : ℚ)) 2).getD 1 none =
      some (max ((1 - ∑ j ∈ Finset.Icc 1 0,
            ((12 : ℚ) / 1200) * zval (fun _ => some (12 : ℚ)) 2 j)
          / (1 + (12 : ℚ) / 1200)) (1 / 100)) :=
  (c2_bootstrap_recurrence (fun _ => (12 : ℚ)) 2
    (by intro k h1 h2; norm_num)).2 1 (by norm_num) (by norm_num)

/-- C3 counterexample: the valid single-quote set with BEY `-1575/8`
(= -196.875, above the -200 boundary) converts to an AC yield of exactly
-600, so the bootstrapped factor at month 1 is 2, violating the claimed
upper bound `discount_factor <= 1.0`. -/
theorem c3_counterexample :
    run [(1, (-1575 / 8 : ℝ))] = .ok [some 1, some 2] ∧ (1 : ℝ) < 2 :=
  ⟨run_ce, by norm_num⟩

/-- C3 amended: every discount factor of a built curve that carries a
defined (finite) value is at least the floor 0.01; the upper bound 1.0 of
the original claim does not hold (see the counterexample). -/
theorem c3_floor_lower_bound (qs : List (ℕ × ℝ)) (l : List (Option ℝ))
    (h : run qs = .ok l) :
    ∀ o ∈ l, ∀ x : ℝ, o = some x → 1 / 100 ≤ x := by
  simp only [run] at h
  cases hm : maxTenor qs with
  | none => rw [hm] at h; simp at h
  | some n =>
      rw [hm] at h
      simp only [Except.ok.injEq] at h
      rw [← h]
      exact bootstrap_floor _ n

/-- Witness for C3 amended at the quote set [(1, 0)]. -/
theorem c3_floor_witness :
    run [(1, (0 : ℝ))] = .ok [some 1, some 1] ∧ (1 / 100 : ℝ) ≤ 1 :=
  ⟨run_zero_quote,
    c3_floor_lower_bound _ _ run_zero_quote (some 1) (by simp) 1 rfl⟩

/-- C4: when step `i` of the bootstrap applies no floor clamp (its unclamped
value is at least 0.01) and all yields at months 1..n are defined and away
from the division singularity, the monthly-pay par instrument of tenor `i`
prices back to par: `sum of c_i * Z(j) for j = 1..i` plus `Z(i)` equals 1. -/
theorem c4_par_pricing (g : ℕ → ℚ) (n i : ℕ) (h1 : 1 ≤ i) (h2 : i ≤ n)
    (hd : ∀ k, 1 ≤ k → k ≤ n → 1 + g k / 1200 ≠ 0)
    (hnc : (1 / 100 : ℚ) ≤ (1 - ∑ j ∈ Finset.Icc 1 (i - 1),
        (g i / 1200) * zval (fun k => some (g k)) n j) / (1 + g i / 1200)) :
    (∑ j ∈ Finset.Icc 1 i, (g i / 1200) * zval (fun k => some (g k)) n j)
      + zval (fun k => some (g k)) n i = 1 := by
  obtain ⟨k, rfl⟩ : ∃ k, i = k + 1 := ⟨i - 1, by omega⟩
  rw [Nat.add_sub_cancel] at hnc
  have hsum : ∑ j ∈ Finset.Icc 1 k,
        (g (k + 1) / 1200) * zval (fun k => some (g k)) n j
      = ∑ j ∈ Finset.Icc 1 k,
        (g (k + 1) / 1200) * (bootstrapP g n).getD j 0 := by
    refine Finset.sum_congr rfl (fun j hj => ?_)
    have hjn : j ≤ n := by
      have := (Finset.mem_Icc.mp hj).2
      omega
    rw [zval_eq_pure g hjn hd]
  rw [hsum] at hnc
  have hZ : zval (fun k => some (g k)) n (k + 1)
      = (1 - ∑ j ∈ Finset.Icc 1 k,
          (g (k + 1) / 1200) * (bootstrapP g n).getD j 0)
        / (1 + g (k + 1) / 1200) := by
    rw [zval_eq_pure g h2 hd, bootstrapP_rec g h2]
    exact max_eq_left hnc
  rw [Finset.sum_Icc_succ_top (Nat.le_add_left 1 k), hsum, hZ]
  have hden := hd (k + 1) (by omega) h2
  set c := g (k + 1) / 1200 with hc
  set D := ∑ j ∈ Finset.Icc 1 k, c * (bootstrapP g n).getD j 0 with hD
  have hcan : (1 + c) * ((1 - D) / (1 + c)) = 1 - D := by
    field_simp
  calc D + c * ((1 - D) / (1 + c)) + (1 - D) / (1 + c)
      = D + (1 + c) * ((1 - D) / (1 + c)) := by ring
    _ = D + (1 - D) := by rw [hcan]
    _ = 1 := by ring

/-- Witness for C4 at the constant curve 12 with n = i = 1. -/
theorem c4_witness :
    (∑ j ∈ Finset.Icc 1 1,
        ((12 : ℚ) / 1200) * zval (fun _ => some (12 : ℚ)) 1 j)
      + zval (fun _ => some (12 : ℚ)) 1 1 = 1 :=
  c4_par_pricing (fun _ => (12 : ℚ)) 1 1 (le_refl 1) (le_refl 1)
    (by intro k hk1 hk2; norm_num)
    (by
      rw [Finset.Icc_eq_empty (by norm_num : ¬(1 : ℕ) ≤ 1 - 1)]
      simp only [Finset.sum_empty]
      norm_num)

/-- C5: the claim states a BEY at or below -200 is rejected with a
validation error before any computation.  The code violates this: for the
quote set `[(1, -300)]` no exception is raised; the conversion silently
produces NaN, and the engine returns a curve whose month-1 factor is NaN
(partial, undefined output). -/
theorem c5_no_validation_on_bey_below_bound :
    run [(1, (-300 : ℝ))] = .ok [some 1, none] := run_neg300

/-- C6: the claim states that `1 + c_i == 0` raises a domain error and no
curve is returned.  The code violates this: for the quote set
`[(1, -200)]` the converted yield is exactly -1200, `1 + c_1 = 0`, and
numpy division by zero silently yields `inf` (modelled `none`); the engine
still returns a full curve instead of raising. -/
theorem c6_no_domain_error_at_singularity :
    run [(1, (-200 : ℝ))] = .ok [some 1, none] := run_neg200

/-- C7: the empty quote set is rejected with a Python `ValueError`
(`np.arange` on the NaN maximum tenor) and no curve of any kind is
produced: the engine result is an error value carrying no output. -/
theorem c7_empty_quotes_value_error : run [] = .error .valueError := rfl

/-- C8: whenever the engine returns a curve (every valid, i.e. non-empty,
quote set does so), the discount factor at month 0 is exactly 1.0. -/
theorem c8_month_zero_discount_one (qs : List (ℕ × ℝ))
    (l : List (Option ℝ)) (h : run qs = .ok l) : l.getD 0 none = some 1 := by
  simp only [run] at h
  cases hm : maxTenor qs with
  | none => rw [hm] at h; simp at h
  | some n =>
      rw [hm] at h
      simp only [Except.ok.injEq] at h
      rw [← h]
      exact bootstrap_getD_zero _ n

/-- Witness for C8 at the quote set [(1, 0)]. -/
theorem c8_witness :
    run [(1, (0 : ℝ))] = .ok [some 1, some 1] ∧
      ([some (1 : ℝ), some 1] : List (Option ℝ)).getD 0 none = some 1 :=
  ⟨run_zero_quote, c8_month_zero_discount_one _ _ run_zero_quote⟩

/-- C9: for every BEY above the -200 boundary the converter returns exactly
`1200 * ((1 + bey / 200) ^ (1/6) - 1)`, and a BEY of exactly 0 converts to
an AC rate of exactly 0. -/
theorem c9_conversion_exact :
    (∀ b : ℝ, -200 < b →
        convert_bey_to_ac b
          = some (1200 * ((1 + b / 200) ^ ((1 : ℝ) / 6) - 1))) ∧
      convert_bey_to_ac 0 = some 0 := by
  constructor
  · intro b hb
    rw [convert_bey_to_ac, if_neg (by intro hc; linarith)]
  · exact convert_zero

/-- Witness for C9 at BEY 0. -/
theorem c9_witness :
    convert_bey_to_ac 0
      = some (1200 * ((1 + (0 : ℝ) / 200) ^ ((1 : ℝ) / 6) - 1)) :=
  c9_conversion_exact.1 0 (by norm_num)

/-- C10: the bootstrap never reads the yield at month 0: two curves of the
same length agreeing on months 1..n (possibly differing, even undefined,
at month 0) produce identical discount-factor lists. -/
theorem c10_bootstrap_ignores_month_zero (y₁ y₂ : ℕ → Option ℚ) (n : ℕ)
    (h : ∀ i, 1 ≤ i → i ≤ n → y₁ i = y₂ i) :
    bootstrap_monthly_zcb y₁ n = bootstrap_monthly_zcb y₂ n := by
  induction n with
  | zero => rfl
  | succ m ih =>
      have hm := ih (fun i hi1 hi2 => h i hi1 (by omega))
      show bootNext y₁ (bootstrap_monthly_zcb y₁ m)
          = bootNext y₂ (bootstrap_monthly_zcb y₂ m)
      rw [hm]
      simp only [bootNext, length_bootstrap]
      rw [h (m + 1) (by omega) (le_refl _)]

/-- Witness for C10: a curve undefined at month 0 and one defined there. -/
theorem c10_witness :
    bootstrap_monthly_zcb (fun i => if i = 0 then none else some (5 : ℚ)) 1
      = bootstrap_monthly_zcb (fun _ => some (5 : ℚ)) 1 :=
  c10_bootstrap_ignores_month_zero _ _ 1 (by
    intro i hi1 hi2
    have hi : i = 1 := by omega
    simp [hi])
